import Mathlib

/-!
Verification of the academic-team question generator
(`academicteam_question_generator.py`) against its natural-language
specification.

The program is a linear pipeline: a tab-separated question file is parsed
into records, a seeded pseudo-random generator samples a fixed number of
records without replacement, and the sampled records are laid out as an
ordered sequence of layout blocks (title page, numbered question tables,
page breaks, optional sixty-second-round tables) that is handed to the
external PDF renderer.  This file embeds that pipeline shallowly:

* file I/O is external, so the reader is embedded at the level of the
  already-split rows (`List (List String)`) produced by the delimited-text
  layer;
* the PDF renderer is external, so layout is embedded as a `Block` tree
  recording exactly the content, styles, ordering, atomicity markers and
  page breaks the program feeds to it (geometry such as column widths and
  margins is the renderer's business and is not modelled);
* the pseudo-random generator is the Python standard library's
  `random.Random(12345)`.  Its `sample(population, k)` routine is embedded
  as the partial Fisher-Yates selection loop it performs, parameterised by
  the `randbelow` stream (state `s`, bound `m` ↦ a value `< m` and a new
  state); every theorem about sampling quantifies over an arbitrary stream
  satisfying that bound contract, which the library generator satisfies,
  so the results are independent of the concrete bit stream.  A small
  concrete conforming stream (`stdRandbelow`) is provided so that the
  statements can be evaluated on explicit inputs.
-/

namespace QuestionGen

/-- One parsed question record: the four tab-separated fields of a line of
the question file, in file order (`question, answer, category, grade`). -/
structure Record where
  q : String
  a : String
  category : String
  grade : String
  deriving DecidableEq

/-- One sixty-second-round item: a prompt and its answer
(the `{'q': ..., 'a': ...}` dictionaries of the source). -/
structure QA where
  q : String
  a : String
  deriving DecidableEq

/-- The data of one sixty-second round: title, instruction paragraph and
the ordered item list (`round_data` in `create_sixtysecond_round`). -/
structure RoundData where
  title : String
  instruct : String
  questions : List QA
  deriving DecidableEq

/-- One table cell as fed to the renderer: the paragraph text and the name
of the paragraph style it is rendered with (`""` when the source builds the
paragraph without naming a style). -/
structure Cell where
  text : String
  style : String
  deriving DecidableEq

/-- One `TableStyle` command of the source, with the `(col, row)` corner
coordinates it carries (negative values index from the end, as in the
source). -/
inductive StyleCmd where
  | valign (c0 r0 c1 r1 : Int) (v : String)
  | halign (c0 r0 c1 r1 : Int) (v : String)
  | span (c0 r0 c1 r1 : Int)
  deriving DecidableEq

/-- A layout block handed to the external renderer: a styled paragraph, a
vertical spacer, a forced page break, a table (cells plus style commands),
or a `KeepTogether` atomicity wrapper. -/
inductive Block where
  | para (text style : String)
  | spacer (w h : Nat)
  | pageBreak
  | table (data : List (List Cell)) (style : List StyleCmd)
  | keepTogether (inner : Block)
  deriving DecidableEq

/-- The failure modes of the embedded pipeline: `malformedRecord` is the
`IndexError` raised by `get_tossup_question_data` when a parsed row has
fewer than four fields (the spec's `MalformedRecord`), and
`insufficientPool` is the `ValueError` raised by `Random.sample` when the
requested size exceeds the population (the spec's `InsufficientPool`). -/
inductive PipelineError where
  | malformedRecord
  | insufficientPool
  deriving DecidableEq

/-- Parsing of one row of the question file, from the row-building loop of
`get_tossup_question_data`: the record is built from `row[0] .. row[3]`
(any further fields are never read), and a row with fewer than four fields
raises (`IndexError`, the spec's `MalformedRecord`). -/
def parseRow : List String → Except PipelineError Record
  | q :: a :: c :: g :: _ => .ok ⟨q, a, c, g⟩
  | _ => .error .malformedRecord

/-- The reading loop of `get_tossup_question_data`: every row of the file
is parsed in file order and appended to `data`; the first malformed row
aborts the read with an error. -/
def readRecords : List (List String) → Except PipelineError (List Record)
  | [] => .ok []
  | row :: rest => do
      let r ← parseRow row
      let rs ← readRecords rest
      .ok (r :: rs)

/-- The selection loop of the Python standard library's
`Random.sample(population, k)` (the partial Fisher-Yates branch): at each
step, with `m` elements still available, it draws `j := randbelow(m)`,
emits `pool[j]`, overwrites slot `j` with the last available element and
shrinks the available range by one.  `rb s m = (j, s')` is the `randbelow`
stream: drawn value and successor state.  (The library's alternative
selection-set branch draws distinct indices by rejection and yields a
selection with the same size / distinct-positions / membership /
determinism properties; the branch choice itself depends on a
floating-point workspace estimate and is not modelled.) -/
def fyLoop (rb : Nat → Nat → Nat × Nat) : Nat → Nat → List α → List α
  | _, 0, _ => []
  | _, _+1, [] => []
  | s, k+1, x :: xs =>
      (x :: xs).getD (rb s (x :: xs).length).1 x ::
        fyLoop rb (rb s (x :: xs).length).2 k
          (((x :: xs).set (rb s (x :: xs).length).1 ((x :: xs).getLastD x)).dropLast)

/-- `Random.sample(population, k)` as called by the program: it raises
`ValueError` (the spec's `InsufficientPool`) unless `0 <= k <= n`, and
otherwise runs the selection loop.  `seed` is the generator state the
program created with `random.Random(12345)`. -/
def sample (rb : Nat → Nat → Nat × Nat) (seed : Nat) (population : List α)
    (k : Nat) : Except PipelineError (List α) :=
  if k ≤ population.length then .ok (fyLoop rb seed k population)
  else .error .insufficientPool

/-- A concrete conforming `randbelow` stream (a 64-bit linear congruential
step reduced modulo the bound), used to evaluate the quantified theorems on
explicit inputs.  The program's actual stream is CPython's seeded Mersenne
Twister; every sampling theorem below quantifies over an arbitrary stream
satisfying the `randbelow` bound contract, which both streams satisfy. -/
def stdRandbelow (s m : Nat) : Nat × Nat :=
  ((6364136223846793005 * s + 1442695040888963407) % 2 ^ 64 % m,
   (6364136223846793005 * s + 1442695040888963407) % 2 ^ 64)

/-- `get_tossup_question_data`: read all rows of the question file in file
order, then sample `num_questions` of the parsed records with a generator
freshly seeded with the constant `12345`. -/
def get_tossup_question_data (rb : Nat → Nat → Nat × Nat)
    (num_questions : Nat) (rows : List (List String)) :
    Except PipelineError (List Record) := do
  let data ← readRecords rows
  sample rb 12345 data num_questions

/-- `create_title_page`: the fixed sequence of title-page blocks — the
organization-name line, the grade-range line, the tournament-type line, the
fixed `"Questions"` heading, the year line, a spacer, the game-number line,
and a forced page break. -/
def create_title_page (grades tournament_type year game_number : String) :
    List Block :=
  [ .para "Saint John Nepomuk Academic Team" "SmallItalicTitle",
    .para ("Grades " ++ grades) "CustomTitle",
    .para tournament_type "CustomTitle",
    .para "Questions" "CustomTitle",
    .para year "CustomTitle",
    .spacer 0 80,
    .para ("Game " ++ game_number) "CustomTitle",
    .pageBreak ]

/-- The table style of `create_tossup_round` (top vertical alignment over
the whole table). -/
def tossupStyle : List StyleCmd := [.valign 0 0 (-1) (-1) "TOP"]

/-- `create_tossup_round`: one question becomes a two-row table — row 1
holds the sequence-number paragraph and the question text, row 2 an empty
first cell and the answer text (in the indented answer style) — wrapped in
`KeepTogether` so the renderer keeps it on one page. -/
def create_tossup_round (question_number : String) (question_data : Record) :
    Block :=
  .keepTogether (.table
    [ [⟨question_number, "Normal"⟩, ⟨question_data.q, "Normal"⟩],
      [⟨"", "Normal"⟩, ⟨question_data.a, "AnswerStyle"⟩] ]
    tossupStyle)

/-- The question loop of `generate_document`: for the `n`-th sampled
record (0-based loop counter `n`) it appends the tossup block numbered
`n+1` and then a fixed 15-point spacer. -/
def tossupSection : Nat → List Record → List Block
  | _, [] => []
  | n, qd :: rest =>
      create_tossup_round (toString (n + 1)) qd :: .spacer 1 15 ::
        tossupSection (n + 1) rest

/-- The story assembled by `generate_document` for a sampled question list:
the title page (built with the call's fixed defaults), the numbered tossup
blocks each followed by its spacer, and the forced page break that follows
the tossup section (the sixty-second section of the source is commented
out, so nothing follows the break).  Writing the story to a timestamped
PDF file is the external renderer's step and is not modelled. -/
def generate_story (questions : List Record) : List Block :=
  create_title_page "5&6" "Practice Questions" "2025-2026" "1" ++
    tossupSection 0 questions ++ [.pageBreak]

/-- The document plan produced from an in-memory record pool: sampling
with the program's fixed seed followed by story assembly (the
read-sample-compose pipeline of `generate_document`, starting from the
parsed pool). -/
def docPlan (rb : Nat → Nat → Nat × Nat) (pool : List Record) (n : Nat) :
    Except PipelineError (List Block) :=
  (sample rb 12345 pool n).map generate_story

/-- The question-and-answer projection of a record: exactly the fields the
composed document reads from a sampled record. -/
def projQA (r : Record) : String × String := (r.q, r.a)

/-- The leading blank row of the sixty-second-round table
(`data.append([Paragraph(''), Paragraph(''), Paragraph('')])`). -/
def emptyRow3 : List Cell := [⟨"", ""⟩, ⟨"", ""⟩, ⟨"", ""⟩]

/-- The `EXTRA:` marker row inserted by the sixty-second-round loop. -/
def extraRow : List Cell := [⟨"EXTRA:", "BoldNormal"⟩, ⟨"", ""⟩, ⟨"", ""⟩]

/-- One sixty-second-round item row: the 1-based item number, the prompt
and the answer, all in the left-aligned style. -/
def sixtyItemRow (n : Nat) (qa : QA) : List Cell :=
  [⟨toString n, "LeftNormal"⟩, ⟨qa.q, "LeftNormal"⟩, ⟨qa.a, "LeftNormal"⟩]

/-- The enumeration loop of `create_sixtysecond_round`: the item with
0-based loop counter `i` is emitted as the row numbered `i+1`, and when
`i == 10` the `EXTRA:` row is appended immediately before it. -/
def sixtyItemRows : Nat → List QA → List (List Cell)
  | _, [] => []
  | i, qa :: rest =>
      if i = 10 then
        extraRow :: sixtyItemRow (i + 1) qa :: sixtyItemRows (i + 1) rest
      else
        sixtyItemRow (i + 1) qa :: sixtyItemRows (i + 1) rest

/-- The full row list of the sixty-second-round table: the leading blank
row followed by the enumerated item rows. -/
def sixtyTableRows (questions : List QA) : List (List Cell) :=
  emptyRow3 :: sixtyItemRows 0 questions

/-- The table style of `create_sixtysecond_round`: left alignment over the
whole table and an unconditional cell span on row 11. -/
def sixtyRoundStyle : List StyleCmd :=
  [.halign 0 0 (-1) (-1) "LEFT", .span 0 11 1 11]

/-- `create_sixtysecond_round`: the centered bold title, a 4-point spacer,
the left-aligned instruction paragraph, a 2-point spacer, and the item
table wrapped in `KeepTogether`. -/
def create_sixtysecond_round (rd : RoundData) : List Block :=
  [ .para rd.title "CategoryTitle",
    .spacer 0 4,
    .para rd.instruct "LeftNormal",
    .spacer 0 2,
    .keepTogether (.table (sixtyTableRows rd.questions) sixtyRoundStyle) ]

/-- `get_sample_data2`: the 11-item sixty-second round shipped with the
source. -/
def get_sample_data2 : RoundData :=
  { title := "U.S. Presidents by Century",
    instruct := "During what century was each of the following U.S. Presidents in Office? For example, George H. W. Bush was in office during the 20th century.",
    questions :=
      [ ⟨"Theodore Roosevelt", "20th"⟩,
        ⟨"James Buchanan", "19th"⟩,
        ⟨"Theodore Roosevelt", "20th"⟩,
        ⟨"James Buchanan", "19th"⟩,
        ⟨"Theodore Roosevelt", "20th"⟩,
        ⟨"James Buchanan", "19th"⟩,
        ⟨"Theodore Roosevelt", "20th"⟩,
        ⟨"James Buchanan", "19th"⟩,
        ⟨"Theodore Roosevelt", "20th"⟩,
        ⟨"James Buchanan", "19th"⟩,
        ⟨"Bill Clinton", "20th"⟩ ] }

/-- Item rows numbered from `n` with no marker interleaved: the shape the
specification describes the item layout with.  Used to state the layout
theorems about `sixtyItemRows`. -/
def numberedRows : Nat → List QA → List (List Cell)
  | _, [] => []
  | n, qa :: rest => sixtyItemRow n qa :: numberedRows (n + 1) rest

/-- The title-page block sequence exactly as the specification enumerates
it: organization name, grade range, document-type label, year label,
spacer, game number label, page break — one styled line per enumerated
field and nothing else (styles taken from the implementation, since the
specification does not name them). -/
def title_page_per_spec (grades tournament_type year game_number : String) :
    List Block :=
  [ .para "Saint John Nepomuk Academic Team" "SmallItalicTitle",
    .para ("Grades " ++ grades) "CustomTitle",
    .para tournament_type "CustomTitle",
    .para year "CustomTitle",
    .spacer 0 80,
    .para ("Game " ++ game_number) "CustomTitle",
    .pageBreak ]

/-- The two-record question file of the specification's test scenario, at
the row level produced by the delimited-text layer. -/
def demoRows : List (List String) :=
  [ ["Name the four blood types.", "A, B, AB, O", "Science", "5"],
    ["Name the state located immediately west of Alabama.", "Mississippi", "Geography", "6"] ]

/-- The first record of the scenario file. -/
def rec1 : Record :=
  ⟨"Name the four blood types.", "A, B, AB, O", "Science", "5"⟩

/-- The second record of the scenario file. -/
def rec2 : Record :=
  ⟨"Name the state located immediately west of Alabama.", "Mississippi", "Geography", "6"⟩

/-- A row with at least four fields parses to the record built from its
first four fields. -/
lemma parseRow_ok_of_four_le (row : List String) (h : 4 ≤ row.length) :
    parseRow row =
      .ok ⟨row.getD 0 "", row.getD 1 "", row.getD 2 "", row.getD 3 ""⟩ := by
  match row, h with
  | q :: a :: c :: g :: rest, _ => rfl

/-- A row with fewer than four fields fails to parse. -/
lemma parseRow_err_of_short (row : List String) (h : row.length < 4) :
    parseRow row = .error .malformedRecord := by
  match row, h with
  | [], _ => rfl
  | [_], _ => rfl
  | [_, _], _ => rfl
  | [_, _, _], _ => rfl

/-- Claim C5: for every input file, if any line has fewer than four
tab-separated fields then reading fails with the `MalformedRecord` error
(no partial or padded record is returned); otherwise reading returns the
records, built from the four fields of each line, in file order. -/
theorem readRecords_malformed_or_in_order (rows : List (List String)) :
    ((∃ row ∈ rows, row.length < 4) →
      readRecords rows = .error .malformedRecord) ∧
    ((∀ row ∈ rows, 4 ≤ row.length) →
      readRecords rows =
        .ok (rows.map fun row =>
          ⟨row.getD 0 "", row.getD 1 "", row.getD 2 "", row.getD 3 ""⟩)) := by
  induction rows with
  | nil =>
      refine ⟨fun h => ?_, fun _ => rfl⟩
      obtain ⟨row, hmem, _⟩ := h
      exact absurd hmem (List.not_mem_nil row)
  | cons row rest ih =>
      constructor
      · rintro ⟨bad, hbad, hlen⟩
        rcases List.mem_cons.mp hbad with hhead | htail
        · subst hhead
          simp only [readRecords, parseRow_err_of_short _ hlen]
          rfl
        · by_cases hrow : row.length < 4
          · simp only [readRecords, parseRow_err_of_short row hrow]
            rfl
          · have h4 : 4 ≤ row.length := Nat.le_of_not_lt hrow
            have herr := ih.1 ⟨bad, htail, hlen⟩
            simp only [readRecords, parseRow_ok_of_four_le row h4, herr]
            rfl
      · intro hall
        have h4 : 4 ≤ row.length := hall row (List.mem_cons_self row rest)
        have hok := ih.2 fun r hr => hall r (List.mem_cons_of_mem row hr)
        simp only [readRecords, List.map_cons, parseRow_ok_of_four_le row h4, hok]
        rfl

/-- Witness for C5 on concrete files: a file whose second line has three
fields is rejected with `MalformedRecord`, and the scenario file is read
into its two records in file order. -/
theorem readRecords_malformed_or_in_order_witness :
    readRecords [["q", "a", "cat", "5"], ["q", "a", "cat"]] =
      .error .malformedRecord ∧
    readRecords demoRows = .ok [rec1, rec2] := by
  constructor
  · exact (readRecords_malformed_or_in_order _).1 (by decide)
  · exact (readRecords_malformed_or_in_order demoRows).2 (by decide)

/-- Claim C8: a line with more than four tab-separated fields is accepted,
and the extra fields are silently discarded: the record is built from
exactly the first four fields, both for the single row and within a read
of the whole file. -/
theorem parseRow_drops_extra_fields (q a c g : String) (rest : List String) :
    parseRow (q :: a :: c :: g :: rest) = .ok ⟨q, a, c, g⟩ ∧
    readRecords [q :: a :: c :: g :: rest] = .ok [⟨q, a, c, g⟩] :=
  ⟨rfl, rfl⟩

/-- Claim C3: sampling fails with `InsufficientPool` exactly when the
requested size exceeds the pool, succeeds exactly when it does not, and a
request of `0` (on any pool, the empty one included) returns the empty
sequence. -/
theorem sample_insufficientPool_iff (rb : Nat → Nat → Nat × Nat)
    (seed : Nat) (pool : List Record) (n : Nat) :
    (sample rb seed pool n = .error .insufficientPool ↔ pool.length < n) ∧
    ((∃ out, sample rb seed pool n = .ok out) ↔ n ≤ pool.length) ∧
    sample rb seed pool 0 = .ok [] := by
  refine ⟨?_, ?_, ?_⟩
  · by_cases h : n ≤ pool.length
    · simp only [sample, if_pos h]
      simp
      omega
    · simp only [sample, if_neg h]
      simp
      omega
  · by_cases h : n ≤ pool.length <;> simp [sample, h]
  · simp [sample, fyLoop]

/-- Claim C2: the sampler is deterministic — two invocations of the full
read-and-sample routine on identical inputs (the generator stream standing
for the seed, the parsed rows, and the sample size) yield identical
results; the routine is a pure function of those inputs, with its seed
fixed to the constant `12345` on every invocation. -/
theorem get_tossup_question_data_deterministic (rb : Nat → Nat → Nat × Nat)
    (rows : List (List String)) (n : Nat)
    (out₁ out₂ : Except PipelineError (List Record))
    (h₁ : get_tossup_question_data rb n rows = out₁)
    (h₂ : get_tossup_question_data rb n rows = out₂) : out₁ = out₂ :=
  h₁ ▸ h₂ ▸ rfl

/-- Witness for C2: two runs on the scenario file agree. -/
theorem get_tossup_question_data_deterministic_witness :
    get_tossup_question_data stdRandbelow 2 demoRows =
      get_tossup_question_data stdRandbelow 2 demoRows :=
  get_tossup_question_data_deterministic stdRandbelow demoRows 2 _ _ rfl rfl

/-- Selecting index `j` and swap-removing it is a permutation of the pool:
the pool is a permutation of its `j`-th element consed onto the pool with
the last element moved into slot `j` and the last slot dropped.  This is
the single step of the `Random.sample` selection loop. -/
lemma perm_select (x : α) :
    ∀ (l : List α) (j : Nat), j < l.length →
      l.Perm (l.getD j x :: (l.set j (l.getLastD x)).dropLast)
  | [], j, h => absurd h (by simp)
  | [a], 0, _ => by simp
  | [a], j+1, h => absurd h (by simp)
  | a :: b :: t, 0, _ => by
      have hne : (b :: t) ≠ [] := List.cons_ne_nil b t
      have hsplit : (b :: t).dropLast ++ [(b :: t).getLast hne] = b :: t :=
        List.dropLast_append_getLast hne
      have hlast : (a :: b :: t).getLastD x = (b :: t).getLast hne := by
        simp [List.getLastD_eq_getLast?, List.getLast?_eq_getLast _ hne]
      have hstep : (b :: t).Perm ((b :: t).getLast hne :: (b :: t).dropLast) := by
        conv_lhs => rw [← hsplit]
        exact List.perm_append_singleton _ _
      show (a :: b :: t).Perm
        ((a :: b :: t).getD 0 x ::
          ((a :: b :: t).set 0 ((a :: b :: t).getLastD x)).dropLast)
      rw [List.getD_cons_zero, List.set_cons_zero, hlast, List.dropLast_cons₂]
      exact List.Perm.cons a hstep
  | a :: b :: t, j+1, h => by
      have hj : j < (b :: t).length := by
        simpa using Nat.lt_of_succ_lt_succ h
      have ih := perm_select x (b :: t) j hj
      have hlast : (a :: b :: t).getLastD x = (b :: t).getLastD x := by
        simp [List.getLastD_eq_getLast?, List.getLast?_cons_cons]
      have hcons : ∃ c r, (b :: t).set j ((b :: t).getLastD x) = c :: r := by
        cases j with
        | zero => exact ⟨_, _, rfl⟩
        | succ j' => exact ⟨_, _, rfl⟩
      obtain ⟨c, r, hcr⟩ := hcons
      have hdrop : ((a :: b :: t).set (j+1) ((a :: b :: t).getLastD x)).dropLast
          = a :: ((b :: t).set j ((b :: t).getLastD x)).dropLast := by
        rw [List.set_cons_succ, hlast, hcr]
        rfl
      have hget : (a :: b :: t).getD (j+1) x = (b :: t).getD j x := by
        simp [List.getD]
      rw [hget, hdrop]
      exact (List.Perm.cons a ih).trans (List.Perm.swap _ _ _)

/-- The selection loop picks a sub-permutation of the pool (distinct
positions, no element instance reused), for every generator stream that
respects the `randbelow` bound. -/
lemma fyLoop_subperm (rb : Nat → Nat → Nat × Nat)
    (hrb : ∀ s m, 0 < m → (rb s m).1 < m) :
    ∀ (k s : Nat) (pool : List α), (fyLoop rb s k pool).Subperm pool
  | 0, _, _ => by simp [fyLoop]
  | k+1, s, [] => by simp [fyLoop]
  | k+1, s, x :: xs => by
      have hj : (rb s (x :: xs).length).1 < (x :: xs).length :=
        hrb s (x :: xs).length (by simp)
      have hperm := perm_select x (x :: xs) (rb s (x :: xs).length).1 hj
      have ih := fyLoop_subperm rb hrb k (rb s (x :: xs).length).2
        (((x :: xs).set (rb s (x :: xs).length).1 ((x :: xs).getLastD x)).dropLast)
      show ((x :: xs).getD (rb s (x :: xs).length).1 x ::
        fyLoop rb (rb s (x :: xs).length).2 k
          (((x :: xs).set (rb s (x :: xs).length).1 ((x :: xs).getLastD x)).dropLast)).Subperm
        (x :: xs)
      exact hperm.subperm_left.mpr ((List.subperm_cons _).mpr ih)

/-- The selection loop returns exactly `k` elements whenever `k` does not
exceed the pool size. -/
lemma fyLoop_length (rb : Nat → Nat → Nat × Nat) :
    ∀ (k s : Nat) (pool : List α), k ≤ pool.length →
      (fyLoop rb s k pool).length = k
  | 0, _, _, _ => by simp [fyLoop]
  | k+1, s, [], h => absurd h (by simp)
  | k+1, s, x :: xs, h => by
      have hlen : (((x :: xs).set (rb s (x :: xs).length).1
          ((x :: xs).getLastD x)).dropLast).length = xs.length := by
        simp
      have hk : k ≤ (((x :: xs).set (rb s (x :: xs).length).1
          ((x :: xs).getLastD x)).dropLast).length := by
        rw [hlen]
        have h' : k + 1 ≤ xs.length + 1 := by simpa using h
        omega
      show ((x :: xs).getD (rb s (x :: xs).length).1 x ::
        fyLoop rb (rb s (x :: xs).length).2 k
          (((x :: xs).set (rb s (x :: xs).length).1 ((x :: xs).getLastD x)).dropLast)).length
        = k + 1
      rw [List.length_cons, fyLoop_length rb k _ _ hk]

/-- The concrete `stdRandbelow` stream respects the `randbelow` bound. -/
lemma stdRandbelow_lt (s m : Nat) (hm : 0 < m) : (stdRandbelow s m).1 < m :=
  Nat.mod_lt _ hm

/-- A record used to build a pool that contains the same record twice. -/
def rdup : Record := ⟨"Name the four blood types.", "A, B, AB, O", "Science", "5"⟩

/-- Counterexample to C1 as stated: on a pool holding the same record
twice, a valid request of `n = 2` returns that record twice, so the
output's elements are not pairwise distinct (sampling without replacement
distinguishes positions, not record values). -/
theorem sample_duplicate_pool_not_distinct :
    sample stdRandbelow 12345 [rdup, rdup] 2 = .ok [rdup, rdup] ∧
    ¬ ([rdup, rdup] : List Record).Nodup := by
  constructor
  · rfl
  · decide

/-- Claim C1, amended: for every conforming generator stream, every pool
and every requested size `n ≤ |pool|`, sampling succeeds and the output
has length exactly `n`, uses pairwise distinct positions of the pool (it
is a permutation of a sublist of the pool, so no record instance is drawn
twice), every element is field-for-field one of the pool's records, and —
whenever the pool's records are themselves pairwise distinct — the output
records are pairwise distinct. -/
theorem sample_length_distinct_mem (rb : Nat → Nat → Nat × Nat)
    (seed n : Nat) (pool : List Record)
    (hrb : ∀ s m, 0 < m → (rb s m).1 < m) (hn : n ≤ pool.length) :
    ∃ out, sample rb seed pool n = .ok out ∧
      out.length = n ∧
      out.Subperm pool ∧
      (∀ r ∈ out, r ∈ pool) ∧
      (pool.Nodup → out.Nodup) := by
  refine ⟨fyLoop rb seed n pool, ?_, ?_, ?_, ?_, ?_⟩
  · simp [sample, hn]
  · exact fyLoop_length rb n seed pool hn
  · exact fyLoop_subperm rb hrb n seed pool
  · exact fun r hr => (fyLoop_subperm rb hrb n seed pool).subset hr
  · intro hnd
    obtain ⟨w, hw, hs⟩ := fyLoop_subperm rb hrb n seed pool
    exact hw.nodup_iff.mp (hs.nodup hnd)

/-- Witness for C1 (amended) on the scenario pool: sampling both records
of the two-record pool with the concrete stream yields two distinct
records of the pool. -/
theorem sample_length_distinct_mem_witness :
    ∃ out, sample stdRandbelow 12345 [rec1, rec2] 2 = .ok out ∧
      out.length = 2 ∧
      out.Subperm [rec1, rec2] ∧
      (∀ r ∈ out, r ∈ [rec1, rec2]) ∧
      (([rec1, rec2] : List Record).Nodup → out.Nodup) :=
  sample_length_distinct_mem stdRandbelow 12345 2 [rec1, rec2]
    stdRandbelow_lt (by decide)

/-- Past loop counter 10, the enumeration loop inserts no marker: it is
the plain numbered-row layout. -/
lemma sixtyItemRows_of_ten_lt :
    ∀ (qs : List QA) (i : Nat), 10 < i →
      sixtyItemRows i qs = numberedRows (i + 1) qs
  | [], _, _ => rfl
  | qa :: rest, i, hi => by
      have hne : i ≠ 10 := Nat.ne_of_gt hi
      simp only [sixtyItemRows, if_neg hne, numberedRows]
      rw [sixtyItemRows_of_ten_lt rest (i + 1) (Nat.lt_succ_of_lt hi)]

/-- Splitting the enumeration loop at the marker: starting at loop counter
`i ≤ 10` with more than `10 - i` items left, the loop lays out the first
`10 - i` items as the rows numbered `i+1, ...`, then the `EXTRA:` row,
then the remaining items as the rows numbered `11, 12, ...`. -/
lemma sixtyItemRows_split :
    ∀ (qs : List QA) (i : Nat), i ≤ 10 → 10 - i < qs.length →
      sixtyItemRows i qs =
        numberedRows (i + 1) (qs.take (10 - i)) ++
          extraRow :: numberedRows 11 (qs.drop (10 - i))
  | [], i, _, hlen => absurd hlen (by simp)
  | qa :: rest, i, hi, hlen => by
      by_cases h10 : i = 10
      · subst h10
        simp only [Nat.sub_self, List.take_zero, List.drop_zero,
          numberedRows, List.nil_append]
        simp only [sixtyItemRows, if_pos rfl]
        rw [sixtyItemRows_of_ten_lt rest 11 (by omega)]
        rfl
      · have hi' : i < 10 := Nat.lt_of_le_of_ne hi h10
        have hm : 10 - i = (10 - (i + 1)) + 1 := by omega
        have hlen' : 10 - (i + 1) < rest.length := by
          have := hlen
          simp only [List.length_cons] at this
          omega
        simp only [sixtyItemRows, if_neg h10]
        rw [sixtyItemRows_split rest (i + 1) (by omega) hlen', hm]
        simp [numberedRows]

/-- The numbered-row layout has one row per item. -/
lemma numberedRows_length :
    ∀ (n : Nat) (qs : List QA), (numberedRows n qs).length = qs.length
  | _, [] => rfl
  | n, qa :: rest => by
      simp only [numberedRows, List.length_cons, numberedRows_length]

/-- Row lookup in the enumeration loop before the marker: as long as the
loop counter stays below 10, row `j` of the loop output is the item row
numbered `i + j + 1` built from the `j`-th remaining item. -/
lemma sixtyItemRows_get :
    ∀ (qs : List QA) (i j : Nat), i + j < 10 → j < qs.length →
      (sixtyItemRows i qs).get? j =
        some (sixtyItemRow (i + j + 1) (qs.getD j ⟨"", ""⟩))
  | [], _, j, _, hj => absurd hj (by simp)
  | qa :: rest, i, 0, hij, _ => by
      have hne : i ≠ 10 := by omega
      simp [sixtyItemRows, if_neg hne]
  | qa :: rest, i, j+1, hij, hj => by
      have hne : i ≠ 10 := by omega
      have ih := sixtyItemRows_get rest (i + 1) j (by omega)
        (by simpa using Nat.lt_of_succ_lt_succ hj)
      simp only [sixtyItemRows, if_neg hne, List.get?_cons_succ]
      rw [ih]
      have harith : i + 1 + j + 1 = i + (j + 1) + 1 := by omega
      rw [harith]
      rfl

/-- Claim C4, amended: for every sixty-second round with at least 11
items, the table's rows are laid out as the leading blank row, items 1
through 10, the `EXTRA:` marker row, then item 11 and any further items,
in fixed input order; consequently the `EXTRA:` row sits at 0-based table
index 11 (table position 12), not index 10. -/
theorem sixty_extra_row_position (qs : List QA) (h : 11 ≤ qs.length) :
    sixtyTableRows qs =
      emptyRow3 :: (numberedRows 1 (qs.take 10) ++
        extraRow :: numberedRows 11 (qs.drop 10)) ∧
    (sixtyTableRows qs).get? 11 = some extraRow := by
  have hsplit := sixtyItemRows_split qs 0 (by omega) (by omega)
  simp only [Nat.sub_zero, Nat.zero_add] at hsplit
  have hrows : sixtyTableRows qs =
      emptyRow3 :: (numberedRows 1 (qs.take 10) ++
        extraRow :: numberedRows 11 (qs.drop 10)) := by
    simp only [sixtyTableRows, hsplit]
  refine ⟨hrows, ?_⟩
  rw [hrows]
  have hlen : (numberedRows 1 (qs.take 10)).length = 10 := by
    rw [numberedRows_length]
    rw [List.length_take]
    omega
  have h11 : (11 : Nat) = (numberedRows 1 (qs.take 10)).length + 1 := by
    rw [hlen]
  rw [List.get?_cons_succ, List.get?_append_right (by omega)]
  rw [hlen]
  rfl

/-- Witness for C4 (amended) on the 11-item round shipped with the
source. -/
theorem sixty_extra_row_position_witness :
    sixtyTableRows get_sample_data2.questions =
      emptyRow3 :: (numberedRows 1 (get_sample_data2.questions.take 10) ++
        extraRow :: numberedRows 11 (get_sample_data2.questions.drop 10)) ∧
    (sixtyTableRows get_sample_data2.questions).get? 11 = some extraRow :=
  sixty_extra_row_position get_sample_data2.questions (by decide)

/-- Counterexample to C4 as stated: in the 11-item round shipped with the
source, 0-based table index 10 holds the row of the item numbered 10, not
the `EXTRA:` row — the `EXTRA:` row sits at index 11, because the table
opens with a blank row before item 1. -/
theorem sixty_extra_row_not_at_ten :
    (sixtyTableRows get_sample_data2.questions).get? 10 =
      some (sixtyItemRow 10 ⟨"James Buchanan", "19th"⟩) ∧
    (sixtyTableRows get_sample_data2.questions).get? 10 ≠ some extraRow ∧
    (sixtyTableRows get_sample_data2.questions).get? 0 = some emptyRow3 := by
  refine ⟨?_, ?_, ?_⟩ <;> decide

/-- Claim C10, amended: for every sixty-second round the composed table's
first row (0-based index 0) is the row of three empty cells, the item
numbered `k` occupies table row index `k` when fewer than TEN items
precede it (i.e. for `k ≤ 10`; the 11th item is displaced one further by
the `EXTRA:` row), and the round's table style — used whatever the item
count is — carries the cell span at row index 11. -/
theorem sixty_first_row_blank_and_span (qs : List QA) (rd : RoundData) :
    (sixtyTableRows qs).get? 0 = some emptyRow3 ∧
    (∀ i : Nat, i < qs.length → i < 10 →
      (sixtyTableRows qs).get? (i + 1) =
        some (sixtyItemRow (i + 1) (qs.getD i ⟨"", ""⟩))) ∧
    StyleCmd.span 0 11 1 11 ∈ sixtyRoundStyle ∧
    Block.keepTogether (.table (sixtyTableRows rd.questions) sixtyRoundStyle) ∈
      create_sixtysecond_round rd := by
  refine ⟨rfl, ?_, by decide, by simp [create_sixtysecond_round]⟩
  intro i hi h10
  have := sixtyItemRows_get qs 0 i (by omega) hi
  simpa [sixtyTableRows] using this

/-- Witness for C10 (amended) on the 11-item round shipped with the
source: the blank first row, item 1 at row index 1, item 10 at row index
10, and the unconditional span. -/
theorem sixty_first_row_blank_and_span_witness :
    (sixtyTableRows get_sample_data2.questions).get? 0 = some emptyRow3 ∧
    (sixtyTableRows get_sample_data2.questions).get? 1 =
      some (sixtyItemRow 1 ⟨"Theodore Roosevelt", "20th"⟩) ∧
    (sixtyTableRows get_sample_data2.questions).get? 10 =
      some (sixtyItemRow 10 ⟨"James Buchanan", "19th"⟩) ∧
    StyleCmd.span 0 11 1 11 ∈ sixtyRoundStyle := by
  have h := sixty_first_row_blank_and_span get_sample_data2.questions
    get_sample_data2
  refine ⟨h.1, ?_, ?_, h.2.2.1⟩
  · have h1 := h.2.1 0 (by decide) (by decide)
    simpa using h1
  · have h9 := h.2.1 9 (by decide) (by decide)
    simpa using h9

/-- Counterexample to C10 as stated: in the 11-item round shipped with the
source, the item numbered 11 is preceded by only 10 items — fewer than 11
— yet it does not occupy table row index 11: that index holds the `EXTRA:`
row, and item 11 sits at index 12. -/
theorem sixty_item_eleven_displaced :
    10 < get_sample_data2.questions.length ∧
    (sixtyTableRows get_sample_data2.questions).get? 11 ≠
      some (sixtyItemRow 11 ⟨"Bill Clinton", "20th"⟩) ∧
    (sixtyTableRows get_sample_data2.questions).get? 11 = some extraRow ∧
    (sixtyTableRows get_sample_data2.questions).get? 12 =
      some (sixtyItemRow 11 ⟨"Bill Clinton", "20th"⟩) := by
  refine ⟨by decide, ?_, ?_, ?_⟩ <;> decide

/-- Counterexample to C6 as stated: at the program's fixed invocation
parameters the composed title block is not the specification's enumerated
seven-block sequence — the program emits eight blocks, the extra one being
the fixed `"Questions"` heading at position 3, between the document-type
line and the year line. -/
theorem title_page_extra_line :
    create_title_page "5&6" "Practice Questions" "2025-2026" "1" ≠
      title_page_per_spec "5&6" "Practice Questions" "2025-2026" "1" ∧
    (create_title_page "5&6" "Practice Questions" "2025-2026" "1").length = 8 ∧
    (title_page_per_spec "5&6" "Practice Questions" "2025-2026" "1").length = 7 ∧
    (create_title_page "5&6" "Practice Questions" "2025-2026" "1").get? 3 =
      some (.para "Questions" "CustomTitle") := by
  refine ⟨?_, rfl, rfl, rfl⟩
  decide

/-- Claim C6, amended: for every invocation the title block is the
specification's enumerated sequence of separate styled lines —
organization name, grade range, document-type label, year label, spacer,
game number label — with one additional fixed `"Questions"` heading line
inserted between the document-type line and the year line, and it ends
with a forced page break before any question content. -/
theorem title_page_layout (grades tournament_type year game_number : String) :
    create_title_page grades tournament_type year game_number =
      List.insertNth 3 (.para "Questions" "CustomTitle")
        (title_page_per_spec grades tournament_type year game_number) ∧
    (create_title_page grades tournament_type year game_number).getLast? =
      some .pageBreak :=
  ⟨rfl, rfl⟩

/-- One row per question block and spacer in the tossup section: the
section contributes exactly two blocks per question. -/
lemma tossupSection_length :
    ∀ (n : Nat) (qs : List Record),
      (tossupSection n qs).length = 2 * qs.length
  | _, [] => rfl
  | n, qd :: rest => by
      simp only [tossupSection, List.length_cons,
        tossupSection_length (n + 1) rest]
      omega

/-- Block lookup in the tossup section: the `i`-th question of the section
started at counter `n` produces the tossup block numbered `n + i + 1` at
even offset `2*i`, followed by the fixed spacer at offset `2*i + 1`. -/
lemma tossupSection_get :
    ∀ (qs : List Record) (n i : Nat), i < qs.length →
      (tossupSection n qs).get? (2 * i) =
        some (create_tossup_round (toString (n + i + 1))
          (qs.getD i ⟨"", "", "", ""⟩)) ∧
      (tossupSection n qs).get? (2 * i + 1) = some (.spacer 1 15)
  | [], _, i, hi => absurd hi (by simp)
  | qd :: rest, n, 0, _ => by
      constructor <;> rfl
  | qd :: rest, n, i+1, hi => by
      have ih := tossupSection_get rest (n + 1) i
        (by simpa using Nat.lt_of_succ_lt_succ hi)
      have h2 : 2 * (i + 1) = (2 * i) + 1 + 1 := by omega
      have harith : n + 1 + i + 1 = n + (i + 1) + 1 := by omega
      rw [h2]
      simp only [tossupSection, List.get?_cons_succ]
      rw [harith] at ih
      exact ih

/-- The title page always contributes exactly eight blocks. -/
lemma create_title_page_length (g t y gn : String) :
    (create_title_page g t y gn).length = 8 := rfl

/-- Claim C7: for every sampled question sequence the composed story emits
exactly one block per question in sampled order — an atomic
(`KeepTogether`) two-row table whose first row holds the 1-based sequence
number and the question text and whose second row holds an empty first
cell and the answer text — each followed by fixed 15-point vertical
spacing, and after the last question block a forced page break is emitted
(the block immediately after the last spacer, and the story's final block)
before any sixty-second-round content could follow. -/
theorem story_question_blocks (qs : List Record) :
    (generate_story qs).length = 8 + 2 * qs.length + 1 ∧
    (∀ i : Nat, i < qs.length →
      (generate_story qs).get? (8 + 2 * i) =
        some (.keepTogether (.table
          [ [⟨toString (i + 1), "Normal"⟩, ⟨(qs.getD i ⟨"", "", "", ""⟩).q, "Normal"⟩],
            [⟨"", "Normal"⟩, ⟨(qs.getD i ⟨"", "", "", ""⟩).a, "AnswerStyle"⟩] ]
          tossupStyle)) ∧
      (generate_story qs).get? (8 + 2 * i + 1) = some (.spacer 1 15)) ∧
    (generate_story qs).get? (8 + 2 * qs.length) = some .pageBreak ∧
    (generate_story qs).getLast? = some .pageBreak := by
  have hsec := tossupSection_length 0 qs
  have happ : ∀ k : Nat,
      (generate_story qs).get? (8 + k) =
        (tossupSection 0 qs ++ [Block.pageBreak]).get? k := by
    intro k
    unfold generate_story
    rw [List.append_assoc,
      List.get?_append_right (by rw [create_title_page_length]; omega),
      create_title_page_length]
    congr 1
    omega
  refine ⟨?_, ?_, ?_, ?_⟩
  · simp [generate_story, create_title_page_length, hsec]
    omega
  · intro i hi
    have hblocks := tossupSection_get qs 0 i hi
    constructor
    · rw [happ (2 * i), List.get?_append (by rw [hsec]; omega)]
      have hb := hblocks.1
      simpa [create_tossup_round] using hb
    · rw [show 8 + 2 * i + 1 = 8 + (2 * i + 1) from by omega,
        happ (2 * i + 1), List.get?_append (by rw [hsec]; omega)]
      exact hblocks.2
  · rw [happ (2 * qs.length),
      List.get?_append_right (by rw [hsec])]
    rw [hsec]
    simp
  · unfold generate_story
    rw [List.getLast?_concat]

/-- Witness for C7 on the scenario pool: the story over `[rec1, rec2]` has
13 blocks, block 8 is the atomic two-row table of question 1 with the
question text in row 1 and the answer text in row 2, block 9 the spacer,
and block 12 the final page break. -/
theorem story_question_blocks_witness :
    (generate_story [rec1, rec2]).length = 13 ∧
    (generate_story [rec1, rec2]).get? 8 =
      some (.keepTogether (.table
        [ [⟨"1", "Normal"⟩, ⟨"Name the four blood types.", "Normal"⟩],
          [⟨"", "Normal"⟩, ⟨"A, B, AB, O", "AnswerStyle"⟩] ]
        tossupStyle)) ∧
    (generate_story [rec1, rec2]).get? 9 = some (.spacer 1 15) ∧
    (generate_story [rec1, rec2]).getLast? = some .pageBreak := by
  have h := story_question_blocks [rec1, rec2]
  have h0 := h.2.1 0 (by decide)
  refine ⟨by simpa using h.1, ?_, by simpa using h0.2, h.2.2.2⟩
  simpa [rec1] using h0.1

/-- The selection loop is natural in the element type: it only moves
elements around, so it commutes with mapping a function over the pool.
In particular the positions it selects depend only on the pool's length
and the generator stream, never on the records' contents. -/
lemma fyLoop_map (rb : Nat → Nat → Nat × Nat) (f : α → β) :
    ∀ (k s : Nat) (l : List α),
      fyLoop rb s k (l.map f) = (fyLoop rb s k l).map f
  | 0, _, _ => by simp [fyLoop]
  | k+1, s, [] => by simp [fyLoop]
  | k+1, s, x :: xs => by
      have ih := fyLoop_map rb f k (rb s (x :: xs).length).2
        (((x :: xs).set (rb s (x :: xs).length).1 ((x :: xs).getLastD x)).dropLast)
      simp only [List.map_cons, fyLoop, List.length_cons, List.length_map]
      simp only [← List.map_cons, List.getD_map, List.getLastD_map,
        ← List.map_set, ← List.map_dropLast]
      simp only [List.length_cons] at ih
      rw [ih]
      simp

/-- The tossup block built from a record reads only the record's question
and answer fields. -/
lemma create_tossup_round_proj (num : String) (r₁ r₂ : Record)
    (h : projQA r₁ = projQA r₂) :
    create_tossup_round num r₁ = create_tossup_round num r₂ := by
  simp only [projQA, Prod.mk.injEq] at h
  simp [create_tossup_round, h.1, h.2]

/-- The tossup section is determined by the question-and-answer
projections of the sampled records. -/
lemma tossupSection_proj :
    ∀ (n : Nat) (qs₁ qs₂ : List Record),
      qs₁.map projQA = qs₂.map projQA →
      tossupSection n qs₁ = tossupSection n qs₂
  | _, [], [], _ => rfl
  | _, _ :: _, [], h => by simp at h
  | _, [], _ :: _, h => by simp at h
  | n, q₁ :: r₁, q₂ :: r₂, h => by
      simp only [List.map_cons, List.cons.injEq] at h
      simp only [tossupSection]
      rw [create_tossup_round_proj _ q₁ q₂ h.1,
        tossupSection_proj (n + 1) r₁ r₂ h.2]

/-- The whole story is determined by the question-and-answer projections
of the sampled records. -/
lemma generate_story_proj (qs₁ qs₂ : List Record)
    (h : qs₁.map projQA = qs₂.map projQA) :
    generate_story qs₁ = generate_story qs₂ := by
  unfold generate_story
  rw [tossupSection_proj 0 qs₁ qs₂ h]

/-- Claim C9: the composed document plan depends only on the question and
answer fields of the records — two pools that agree record-by-record on
question and answer (but may differ arbitrarily in category and grade
level) yield identical document plans under the same invocation. -/
theorem docPlan_depends_only_on_qa (rb : Nat → Nat → Nat × Nat) (n : Nat)
    (d₁ d₂ : List Record) (h : d₁.map projQA = d₂.map projQA) :
    docPlan rb d₁ n = docPlan rb d₂ n := by
  have hlen : d₁.length = d₂.length := by
    have hc := congrArg List.length h
    simpa using hc
  by_cases hn : n ≤ d₁.length
  · have hn' : n ≤ d₂.length := hlen ▸ hn
    simp only [docPlan, sample, if_pos hn, if_pos hn', Except.map]
    congr 1
    apply generate_story_proj
    rw [← fyLoop_map rb projQA, ← fyLoop_map rb projQA, h]
  · have hn' : ¬ n ≤ d₂.length := fun hc => hn (hlen ▸ hc)
    simp [docPlan, sample, if_neg hn, if_neg hn']

/-- A variant of the second scenario record that differs only in category
and grade level. -/
def rec2alt : Record :=
  ⟨"Name the state located immediately west of Alabama.", "Mississippi", "History", "8"⟩

/-- Witness for C9: swapping the category and grade of a pool record
leaves the composed document plan unchanged. -/
theorem docPlan_depends_only_on_qa_witness :
    docPlan stdRandbelow [rec1, rec2] 2 = docPlan stdRandbelow [rec1, rec2alt] 2 :=
  docPlan_depends_only_on_qa stdRandbelow 2 [rec1, rec2] [rec1, rec2alt]
    (by decide)

end QuestionGen
